import Mathlib

/-!
Verification of the repository-health inspector (`scripts/inspect_repo.js`).

The development shallowly embeds the two core components of the tool:

* the finding detector (the README / LICENSE / .gitignore / CI-workflow
  checks over the repository file listings), and
* the reconciliation engine (the per-finding search / create-or-update loop
  against the Jira ticket store, including the invalid-project recovery
  branch that prompts for a replacement project key).

The ticket store itself (`jiraService.js`) is not part of the inspected
sources; where its behaviour is needed it is modelled from the
specification, and such definitions are marked accordingly.
-/

set_option maxHeartbeats 1000000

/-- Substring test: `strContains s pat` holds when `pat` occurs inside `s`
(the semantics of JavaScript's `String.prototype.includes`). -/
def strContains (s pat : String) : Bool :=
  decide (pat.data <:+: s.data)

/-- JavaScript `toLowerCase()`: lower-case every character.  Defined over
the character list so that it evaluates by kernel reduction. -/
def lowerStr (s : String) : String :=
  ⟨s.data.map Char.toLower⟩

/-- JavaScript `toUpperCase()`: upper-case every character. -/
def upperStr (s : String) : String :=
  ⟨s.data.map Char.toUpper⟩

/-- JavaScript `trim()`: strip leading and trailing whitespace. -/
def trimStr (s : String) : String :=
  ⟨((s.data.dropWhile Char.isWhitespace).reverse.dropWhile Char.isWhitespace).reverse⟩

/-- One character of JSON string escaping, as performed by
`JSON.stringify` on a string value. -/
def jsonEscapeChar (c : Char) : List Char :=
  if c = '"' then ['\\', '"']
  else if c = '\\' then ['\\', '\\']
  else if c = '\n' then ['\\', 'n']
  else if c = '\r' then ['\\', 'r']
  else if c = '\t' then ['\\', 't']
  else if c = '\x08' then ['\\', 'b']
  else if c = '\x0c' then ['\\', 'f']
  else if c.toNat < 32 then
    ['\\', 'u', '0', '0', Nat.digitChar (c.toNat / 16), Nat.digitChar (c.toNat % 16)]
  else [c]

/-- `JSON.stringify` applied to a string: the body is escaped and wrapped in
double quotes.  Used by the engine's error classifier
(`const errMsg = JSON.stringify(err.message || '')`). -/
def jsonStringify (s : String) : String :=
  ⟨'"' :: ((s.data.map jsonEscapeChar).flatten ++ ['"'])⟩

/-- Error classification from the catch block of `inspectRepo`
(`scripts/inspect_repo.js` lines 181-183): a failure is treated as an
invalid-project ("invalid collection") error exactly when the JSON-encoded
message contains `valid project is required` or `project is required`, or
the raw message is non-empty and contains `400`. -/
def isProjectError (msg : String) : Bool :=
  let errMsg := jsonStringify msg
  strContains errMsg "valid project is required" ||
    strContains errMsg "project is required" ||
    (!msg.data.isEmpty && strContains msg "400")

/-- `summary.replace(/"/g, '\\"')` from line 157: escape double quotes before
interpolating the summary into a JQL string. -/
def escapeQuotes (s : String) : String :=
  ⟨(s.data.map fun c => if c = '"' then ['\\', '"'] else [c]).flatten⟩

/-- The JQL query built on line 158:
`project = "<key>" AND summary ~ "<safeSummary>"`. -/
def mkJql (projectKey safeSummary : String) : String :=
  "project = \"" ++ projectKey ++ "\" AND summary ~ \"" ++ safeSummary ++ "\""

/-- Value of a single character as a digit in the given radix, if valid
(JavaScript `parseInt` digit handling: `0-9`, `a-z`, `A-Z`). -/
def charDigit (radix : Nat) (c : Char) : Option Nat :=
  let v : Option Nat :=
    if '0' ≤ c ∧ c ≤ '9' then some (c.toNat - 48)
    else if 'a' ≤ c ∧ c ≤ 'z' then some (c.toNat - 87)
    else if 'A' ≤ c ∧ c ≤ 'Z' then some (c.toNat - 55)
    else none
  match v with
  | some d => if d < radix then some d else none
  | none => none

/-- Accumulate the value of the longest leading run of valid digits;
`none` when no digit at all was consumed. -/
def digitsVal (radix : Nat) : List Char → Nat → Bool → Option Nat
  | [], acc, found => if found then some acc else none
  | c :: rest, acc, found =>
    match charDigit radix c with
    | some d => digitsVal radix rest (acc * radix + d) true
    | none => if found then some acc else none

/-- JavaScript `parseInt(s)` with no explicit radix: skip leading
whitespace, read an optional sign, detect a `0x`/`0X` hexadecimal prefix,
then take the value of the longest leading run of valid digits.  `none`
models `NaN`. -/
def jsParseInt (s : String) : Option Int :=
  let cs := s.data.dropWhile Char.isWhitespace
  let signAndRest : Int × List Char :=
    match cs with
    | '-' :: rest => (-1, rest)
    | '+' :: rest => (1, rest)
    | _ => (1, cs)
  let radixAndRest : Nat × List Char :=
    match signAndRest.2 with
    | '0' :: 'x' :: rest => (16, rest)
    | '0' :: 'X' :: rest => (16, rest)
    | rest => (10, rest)
  match digitsVal radixAndRest.1 radixAndRest.2 0 false with
  | some v => some (signAndRest.1 * (v : Int))
  | none => none

/-- A Jira project as returned by `getProjects()`: a key and a display
name. -/
structure Project where
  key : String
  name : String
deriving DecidableEq

/-- Replacement project-key selection (`scripts/inspect_repo.js` lines
199-209): trim the answer; if `parseInt` yields a number within
`1..projects.length` take the key of the project at that position,
otherwise take the trimmed answer itself, upper-cased. -/
def chooseProjectKey (projects : List Project) (answer : String) : String :=
  let choice := trimStr answer
  match jsParseInt choice with
  | some n =>
    if 0 < n ∧ n ≤ (projects.length : Int) then
      (((projects.get? (n - 1).toNat).map Project.key).getD (upperStr choice))
    else upperStr choice
  | none => upperStr choice

/-- A detected repository-health finding: a ticket summary and a templated
description. -/
structure Finding where
  summary : String
  description : String
deriving DecidableEq

/-- The README finding pushed on lines 85-89. -/
def readmeFinding (repoName : String) : Finding :=
  ⟨"Missing README in " ++ repoName,
   "The repository [" ++ repoName ++ "|https://github.com/" ++ repoName ++
     "] is missing a README file. Please add a README.md to document the project."⟩

/-- The LICENSE finding pushed on lines 96-100. -/
def licenseFinding (repoName : String) : Finding :=
  ⟨"Missing LICENSE in " ++ repoName,
   "The repository [" ++ repoName ++ "|https://github.com/" ++ repoName ++
     "] is missing a LICENSE file. Please add an appropriate open source license."⟩

/-- The .gitignore finding pushed on lines 107-111. -/
def gitignoreFinding (repoName : String) : Finding :=
  ⟨"Missing .gitignore in " ++ repoName,
   "The repository [" ++ repoName ++ "|https://github.com/" ++ repoName ++
     "] is missing a .gitignore file. This is essential to prevent committing temporary or sensitive files."⟩

/-- The CI-workflow finding pushed on lines 121-125. -/
def workflowsFinding (repoName : String) : Finding :=
  ⟨"Missing GitHub Workflows in " ++ repoName,
   "The repository [" ++ repoName ++ "|https://github.com/" ++ repoName ++
     "] does not appear to have any CI/CD workflows in .github/workflows. Please add appropriate Actions workflows."⟩

/-- The finding detector (`scripts/inspect_repo.js` lines 80-129): the root
file names are lower-cased, then the four checks run in declaration order
(README, LICENSE, .gitignore, CI workflows), each pushing at most one
finding. -/
def detect (repoName : String) (rootFiles workflowFiles : List String) : List Finding :=
  let lowerFiles := rootFiles.map lowerStr
  let findings : List Finding := []
  let findings :=
    if !lowerFiles.contains "readme.md" && !lowerFiles.contains "readme.txt" &&
        !lowerFiles.contains "readme" then
      findings ++ [readmeFinding repoName]
    else findings
  let findings :=
    if !lowerFiles.contains "license" && !lowerFiles.contains "license.md" &&
        !lowerFiles.contains "license.txt" && !lowerFiles.contains "copying" then
      findings ++ [licenseFinding repoName]
    else findings
  let findings :=
    if !lowerFiles.contains ".gitignore" then findings ++ [gitignoreFinding repoName]
    else findings
  let findings :=
    if workflowFiles.length > 0 then findings else findings ++ [workflowsFinding repoName]
  findings

/-- Build/test command template selection (lines 140-151): `package.json`
selects npm commands, else `pom.xml` selects Maven, else `requirements.txt`
selects pip/pytest, else `N/A`. -/
def buildCommands (lowerFiles : List String) : String × String :=
  if lowerFiles.contains "package.json" then ("npm install && npm run build", "npm test")
  else if lowerFiles.contains "pom.xml" then ("mvn clean install", "mvn test")
  else if lowerFiles.contains "requirements.txt" then
    ("pip install -r requirements.txt", "pytest")
  else ("N/A", "N/A")

/-- The templated ticket description built on line 153. -/
def mkDescription (repoName : String) (lowerFiles : List String) (findingDescription : String) :
    String :=
  repoName ++ "\n\n" ++ findingDescription ++ "\n\nPayload:\n- Build Command: " ++
    (buildCommands lowerFiles).1 ++ "\n- Test Command: " ++ (buildCommands lowerFiles).2

/-- A ticket as seen by the engine: only its key is consumed
(`existingIssues[0].key`, `ticket.key`). -/
structure Ticket where
  key : String
deriving DecidableEq

/-- Observable actions the engine performs against its collaborators, in
order: issuing the JQL search, attempting an update or a create, listing
the available projects, and prompting for a replacement key. -/
inductive Event where
  | search (jql : String)
  | update (ticketKey summary description : String)
  | create (collection summary description kind : String)
  | listProjects
  | prompt (answer : String)
deriving DecidableEq

/-- Terminal per-finding outcome. -/
inductive Outcome where
  | created (key : String)
  | updated (key : String)
  | abandoned (errMsg : String)
deriving DecidableEq

/-- Result of one iteration of the per-finding `while (!success)` loop:
a terminal outcome (`success = true`, or `break` on a non-project error),
a retry with a replaced project key, or a thrown error that escapes the
loop and aborts the whole run. -/
inductive StepResult where
  | done (o : Outcome)
  | retry
  | fatal (errMsg : String)
deriving DecidableEq

/-- Result of processing one finding to completion: a terminal outcome, or
an error thrown out of the loop (aborting the run). -/
inductive FindingResult where
  | outcome (o : Outcome)
  | fatal (errMsg : String)
deriving DecidableEq

/-- Result of a whole run: the per-finding outcomes in order, aborted runs
additionally carrying the escaped error. -/
inductive RunResult where
  | finished (outcomes : List Outcome)
  | aborted (outcomes : List Outcome) (errMsg : String)
deriving DecidableEq

/-- Prefix a completed run with one more leading outcome. -/
def combineRun (o : Outcome) : RunResult → RunResult
  | RunResult.finished os => RunResult.finished (o :: os)
  | RunResult.aborted os e => RunResult.aborted (o :: os) e

/-- Abstract interface to the engine's collaborators, threading a world
state `σ`.  `searchIssues` receives the project key and the summary the
JQL query is built from; `createIssue` receives project key, summary,
description and issue type; `updateIssue` receives the ticket key and the
new summary/description; `getProjects` lists candidate projects; `ask`
obtains the interactive answer to the project prompt.

Modelled from the spec: the bodies of `jiraService.searchIssues`,
`createIssue`, `updateIssue`, `getProjects` and the readline prompt are not
part of the inspected sources, so they are abstracted as an oracle exactly
as §4.2/§6 of the specification describes the Ticket Store and Collection
Resolver boundary. -/
structure TicketApi (σ : Type) where
  searchIssues : σ → String → String → (Except String (List Ticket)) × σ
  createIssue : σ → String → String → String → String → (Except String Ticket) × σ
  updateIssue : σ → String → String → String → (Except String Ticket) × σ
  getProjects : σ → (Except String (List Project)) × σ
  ask : σ → String × σ

/-- The catch block of the per-finding loop (lines 180-221): a
project-signalling failure lists projects (entering the recovery branch) —
an empty or failed listing rethrows the original error, otherwise the
answer to the prompt replaces the project key and the loop retries; any
other failure becomes a terminal `abandoned` outcome for this finding. -/
def handleFailure {σ : Type} (api : TicketApi σ) (errMsg : String) (key : String) (w : σ)
    (evs : List Event) : StepResult × String × σ × List Event :=
  if isProjectError errMsg then
    match api.getProjects w with
    | (Except.ok projects, w1) =>
      if projects.isEmpty then
        (StepResult.fatal errMsg, key, w1, evs ++ [Event.listProjects])
      else
        (StepResult.retry, chooseProjectKey projects (api.ask w1).1, (api.ask w1).2,
          evs ++ [Event.listProjects, Event.prompt (api.ask w1).1])
    | (Except.error _, w1) => (StepResult.fatal errMsg, key, w1, evs ++ [Event.listProjects])
  else
    (StepResult.done (Outcome.abandoned errMsg), key, w, evs)

/-- One iteration of the per-finding loop (lines 138-221): build the
templated description, search by JQL, update the first match or create a
new ticket, routing any failure through `handleFailure`. -/
def reconcileStep {σ : Type} (api : TicketApi σ) (repoName : String) (lowerFiles : List String)
    (f : Finding) (key : String) (w : σ) : StepResult × String × σ × List Event :=
  let d := mkDescription repoName lowerFiles f.description
  let searchEv := Event.search (mkJql key (escapeQuotes f.summary))
  match api.searchIssues w key f.summary with
  | (Except.error e, w1) => handleFailure api e key w1 [searchEv]
  | (Except.ok (t :: _), w1) =>
    match api.updateIssue w1 t.key f.summary d with
    | (Except.ok _, w2) =>
      (StepResult.done (Outcome.updated t.key), key, w2,
        [searchEv, Event.update t.key f.summary d])
    | (Except.error e, w2) =>
      handleFailure api e key w2 [searchEv, Event.update t.key f.summary d]
  | (Except.ok [], w1) =>
    match api.createIssue w1 key f.summary d "Task" with
    | (Except.ok tk, w2) =>
      (StepResult.done (Outcome.created tk.key), key, w2,
        [searchEv, Event.create key f.summary d "Task"])
    | (Except.error e, w2) =>
      handleFailure api e key w2 [searchEv, Event.create key f.summary d "Task"]

/-- The per-finding `while (!success)` loop.  The loop in the source is
unbounded (the prompt can be answered indefinitely), so it is embedded with
explicit fuel bounding the number of retry iterations; `none` means the
fuel ran out before the loop terminated. -/
def reconcileFinding {σ : Type} (api : TicketApi σ) (repoName : String)
    (lowerFiles : List String) (f : Finding) :
    Nat → String → σ → Option (FindingResult × String × σ × List Event)
  | 0, _, _ => none
  | fuel + 1, key, w =>
    match reconcileStep api repoName lowerFiles f key w with
    | (StepResult.done o, k1, w1, evs) => some (FindingResult.outcome o, k1, w1, evs)
    | (StepResult.fatal e, k1, w1, evs) => some (FindingResult.fatal e, k1, w1, evs)
    | (StepResult.retry, k1, w1, evs) =>
      match reconcileFinding api repoName lowerFiles f fuel k1 w1 with
      | none => none
      | some (r, k2, w2, evs2) => some (r, k2, w2, evs ++ evs2)

/-- The reconciliation run (`for (const finding of findings)`, lines
136-223): findings are processed strictly in order, each threading the
current project key and world to the next; a thrown error aborts the whole
run, any terminal outcome lets the run continue. -/
def reconcile {σ : Type} (api : TicketApi σ) (repoName : String) (lowerFiles : List String) :
    List Finding → Nat → String → σ → Option (RunResult × String × σ × List Event)
  | [], _, key, w => some (RunResult.finished [], key, w, [])
  | f :: fs, fuel, key, w =>
    match reconcileFinding api repoName lowerFiles f fuel key w with
    | none => none
    | some (FindingResult.fatal e, k1, w1, evs) => some (RunResult.aborted [] e, k1, w1, evs)
    | some (FindingResult.outcome o, k1, w1, evs) =>
      match reconcile api repoName lowerFiles fs fuel k1 w1 with
      | none => none
      | some (rr, k2, w2, evs2) => some (combineRun o rr, k2, w2, evs ++ evs2)

/-- Little-endian decimal digits of `n`, with explicit fuel so that the
definition is structurally recursive (and hence evaluates inside the
kernel); with fuel at least `n` it agrees with `Nat.digits 10 n`. -/
def natDigitsAux : Nat → Nat → List Nat
  | _, 0 => []
  | 0, _ + 1 => []
  | fuel + 1, n + 1 => (n + 1) % 10 :: natDigitsAux fuel ((n + 1) / 10)

/-- Decimal rendering of a ticket number.

Modelled from the spec: ticket keys are minted by the remote store
(`created(key)` with "a freshly minted ticket key", §8); only freshness
(injectivity) of the minted keys matters to the engine. -/
def natRepr (n : Nat) : String :=
  if n = 0 then "0" else ⟨((natDigitsAux n n).map Nat.digitChar).reverse⟩

/-- Modelled from the spec: the store's freshly minted ticket key for the
`n`-th ticket of a collection, in the Jira `KEY-number` shape. -/
def mkTicketKey (collection : String) (n : Nat) : String :=
  collection ++ "-" ++ natRepr n

/-- A ticket record held by the concrete store model: key, owning
collection (project), summary and description. -/
structure StoredTicket where
  key : String
  project : String
  summary : String
  description : String
deriving DecidableEq

/-- State of the concrete store model: the tickets and the counter used to
mint fresh keys. -/
structure Store where
  tickets : List StoredTicket
  nextId : Nat
deriving DecidableEq

/-- Modelled from the spec: `searchIssues` resolves a `summary ~ "text"`
JQL query as a loosely scoped text-contains match on the ticket summary,
scoped to the collection (§4.2 step 1, §9). -/
def storeSearch (tickets : List StoredTicket) (collection summary : String) :
    List StoredTicket :=
  tickets.filter fun t => t.project == collection && strContains t.summary summary

/-- Modelled from the spec: a concrete, deterministic Ticket Store
(`jiraService.js` is not among the inspected sources).  `searchIssues`
filters by collection and summary-contains; `createIssue` appends a ticket
under a freshly minted key; `updateIssue` rewrites the summary and
description of the ticket with the given key.  No operation fails. -/
def jiraStore : TicketApi Store where
  searchIssues w c s :=
    (Except.ok ((storeSearch w.tickets c s).map fun t => ⟨t.key⟩), w)
  createIssue w c s d _kind :=
    (Except.ok ⟨mkTicketKey c w.nextId⟩,
     ⟨w.tickets ++ [⟨mkTicketKey c w.nextId, c, s, d⟩], w.nextId + 1⟩)
  updateIssue w k s d :=
    (Except.ok ⟨k⟩,
     ⟨w.tickets.map fun t =>
        if t.key == k then { t with summary := s, description := d } else t,
      w.nextId⟩)
  getProjects w := (Except.ok [], w)
  ask w := ("", w)

/-- The tickets a run over the given findings creates in order, starting
from counter `i`: one ticket per finding, carrying the finding's summary
and templated description. -/
def createdTickets (collection : String) (repoName : String) (lowerFiles : List String)
    (i : Nat) : List Finding → List StoredTicket
  | [] => []
  | f :: fs =>
    ⟨mkTicketKey collection i, collection, f.summary,
      mkDescription repoName lowerFiles f.description⟩ ::
      createdTickets collection repoName lowerFiles (i + 1) fs

/-- The `created` outcomes matching `createdTickets`. -/
def createdOutcomes (collection : String) (i : Nat) : List Finding → List Outcome
  | [] => []
  | _ :: fs => Outcome.created (mkTicketKey collection i) :: createdOutcomes collection (i + 1) fs

/-- A constant-response oracle used to exercise the engine's failure
branches on concrete inputs. -/
def oracleApi (searchRes : Except String (List Ticket)) (createRes updateRes : Except String Ticket)
    (projectsRes : Except String (List Project)) (answer : String) : TicketApi Unit where
  searchIssues w _ _ := (searchRes, w)
  createIssue w _ _ _ _ := (createRes, w)
  updateIssue w _ _ _ := (updateRes, w)
  getProjects w := (projectsRes, w)
  ask w := (answer, w)

/-- The decision of each of the four checks, named for reuse. -/
def readmeMissing (rootFiles : List String) : Bool :=
  !(rootFiles.map lowerStr).contains "readme.md" &&
    !(rootFiles.map lowerStr).contains "readme.txt" && !(rootFiles.map lowerStr).contains "readme"

def licenseMissing (rootFiles : List String) : Bool :=
  !(rootFiles.map lowerStr).contains "license" && !(rootFiles.map lowerStr).contains "license.md" &&
    !(rootFiles.map lowerStr).contains "license.txt" && !(rootFiles.map lowerStr).contains "copying"

def gitignoreMissing (rootFiles : List String) : Bool :=
  !(rootFiles.map lowerStr).contains ".gitignore"

/-- Pairwise independence of finding summaries: no summary of one finding
occurs as a substring of another's.  The detector's fixed summaries satisfy
this for any repository name. -/
def summariesIndependent (fs : List Finding) : Prop :=
  List.Pairwise
    (fun f g => strContains f.summary g.summary = false ∧
      strContains g.summary f.summary = false) fs

lemma strContains_self (s : String) : strContains s s = true := by
  simp only [strContains, decide_eq_true_eq]
  exact ⟨[], [], by simp⟩

lemma append_ne_of_length_ne (p q r : String) (h : p.length ≠ q.length) :
    p ++ r ≠ q ++ r := by
  intro hc
  have hl := congrArg String.length hc
  simp only [String.length_append] at hl
  omega

lemma natDigitsAux_eq_digits : ∀ fuel n, n ≤ fuel → natDigitsAux fuel n = Nat.digits 10 n := by
  intro fuel
  induction fuel with
  | zero =>
    intro n hn
    have : n = 0 := Nat.le_zero.mp hn
    subst this
    simp [natDigitsAux]
  | succ fuel ih =>
    intro n hn
    match n with
    | 0 => simp [natDigitsAux]
    | m + 1 =>
      rw [natDigitsAux, Nat.digits_def' (by norm_num : (1 : ℕ) < 10) (Nat.succ_pos m)]
      congr 1
      refine ih _ ?_
      have := Nat.div_lt_self (Nat.succ_pos m) (by norm_num : 1 < 10)
      omega

lemma digitChar_inj_lt10 : ∀ a < 10, ∀ b < 10, Nat.digitChar a = Nat.digitChar b → a = b := by
  decide

lemma map_digitChar_inj : ∀ xs ys : List Nat, (∀ x ∈ xs, x < 10) → (∀ y ∈ ys, y < 10) →
    xs.map Nat.digitChar = ys.map Nat.digitChar → xs = ys := by
  intro xs
  induction xs with
  | nil => intro ys _ _ h; cases ys <;> simp_all
  | cons x xs ih =>
    intro ys hx hy h
    cases ys with
    | nil => simp_all
    | cons y ys =>
      simp only [List.map_cons, List.cons.injEq] at h
      have hxy : x = y :=
        digitChar_inj_lt10 x (hx x (by simp)) y (hy y (by simp)) h.1
      have := ih ys (fun a ha => hx a (by simp [ha])) (fun a ha => hy a (by simp [ha])) h.2
      simp [hxy, this]

lemma natDigitsAux_lt10 (n : Nat) : ∀ d ∈ natDigitsAux n n, d < 10 := by
  intro d hd
  rw [natDigitsAux_eq_digits n n (Nat.le_refl n)] at hd
  exact Nat.digits_lt_base (by norm_num) hd

lemma natRepr_inj : ∀ m n, natRepr m = natRepr n → m = n := by
  have key : ∀ m n, m ≠ 0 → n ≠ 0 →
      ((natDigitsAux m m).map Nat.digitChar).reverse =
        ((natDigitsAux n n).map Nat.digitChar).reverse → m = n := by
    intro m n _ _ h
    have h2 := congrArg List.reverse h
    simp only [List.reverse_reverse] at h2
    have h3 := map_digitChar_inj _ _ (natDigitsAux_lt10 m) (natDigitsAux_lt10 n) h2
    rw [natDigitsAux_eq_digits m m (Nat.le_refl m),
      natDigitsAux_eq_digits n n (Nat.le_refl n)] at h3
    exact Nat.digits_inj_iff.mp h3
  have zero_case : ∀ n, n ≠ 0 → (['0'] : List Char) ≠
      ((natDigitsAux n n).map Nat.digitChar).reverse := by
    intro n hn h0
    have h : (['0'] : List Char) = ((natDigitsAux n n).map Nat.digitChar).reverse := h0
    have h2 := congrArg List.reverse h
    simp only [List.reverse_reverse] at h2
    have h3 : (natDigitsAux n n).map Nat.digitChar = [0].map Nat.digitChar := by
      simpa using h2.symm
    have h4 := map_digitChar_inj _ _ (natDigitsAux_lt10 n) (by simp) h3
    rw [natDigitsAux_eq_digits n n (Nat.le_refl n)] at h4
    have h5 := congrArg (Nat.ofDigits 10) h4
    rw [Nat.ofDigits_digits] at h5
    simp [Nat.ofDigits] at h5
    exact hn h5
  intro m n h
  unfold natRepr at h
  by_cases hm : m = 0
  · by_cases hn : n = 0
    · omega
    · exfalso
      rw [if_pos hm, if_neg hn] at h
      have hd := congrArg String.data h
      exact zero_case n hn hd
  · by_cases hn : n = 0
    · exfalso
      rw [if_neg hm, if_pos hn] at h
      have hd := congrArg String.data h
      exact zero_case m hm hd.symm
    · rw [if_neg hm, if_neg hn] at h
      have hd := congrArg String.data h
      exact key m n hm hn hd

lemma string_ext_data : ∀ {s t : String}, s.data = t.data → s = t := by
  intro s t h
  cases s
  cases t
  exact congrArg String.mk h

lemma mkTicketKey_inj (c : String) {m n : Nat} (h : mkTicketKey c m = mkTicketKey c n) :
    m = n := by
  unfold mkTicketKey at h
  have hd := congrArg String.data h
  simp only [String.data_append] at hd
  have h2 := List.append_cancel_left hd
  exact natRepr_inj m n (string_ext_data h2)

lemma finding_ne_of_summary_ne {f g : Finding} (h : f.summary ≠ g.summary) : f ≠ g := by
  intro hc
  exact h (congrArg Finding.summary hc)

lemma readmeFinding_ne_licenseFinding (r : String) : readmeFinding r ≠ licenseFinding r :=
  finding_ne_of_summary_ne (append_ne_of_length_ne _ _ r (by decide))

lemma readmeFinding_ne_gitignoreFinding (r : String) : readmeFinding r ≠ gitignoreFinding r :=
  finding_ne_of_summary_ne (append_ne_of_length_ne _ _ r (by decide))

lemma readmeFinding_ne_workflowsFinding (r : String) : readmeFinding r ≠ workflowsFinding r :=
  finding_ne_of_summary_ne (append_ne_of_length_ne _ _ r (by decide))

lemma licenseFinding_ne_gitignoreFinding (r : String) : licenseFinding r ≠ gitignoreFinding r :=
  finding_ne_of_summary_ne (append_ne_of_length_ne _ _ r (by decide))

lemma licenseFinding_ne_workflowsFinding (r : String) : licenseFinding r ≠ workflowsFinding r :=
  finding_ne_of_summary_ne (append_ne_of_length_ne _ _ r (by decide))

lemma gitignoreFinding_ne_workflowsFinding (r : String) : gitignoreFinding r ≠ workflowsFinding r :=
  finding_ne_of_summary_ne (append_ne_of_length_ne _ _ r (by decide))

lemma mem_if_singleton {α : Type} (x y : α) (c : Prop) [Decidable c] :
    (x ∈ if c then [y] else []) ↔ (c ∧ x = y) := by
  split <;> simp_all

lemma detect_characterization (r : String) (root wf : List String) :
    detect r root wf =
      (if readmeMissing root then [readmeFinding r] else []) ++
        (if licenseMissing root then [licenseFinding r] else []) ++
        (if gitignoreMissing root then [gitignoreFinding r] else []) ++
        (if wf.length > 0 then [] else [workflowsFinding r]) := by
  simp only [detect, readmeMissing, licenseMissing, gitignoreMissing]
  split_ifs <;> simp

lemma handleFailure_not_project {σ : Type} (api : TicketApi σ) (e key : String) (w : σ)
    (evs : List Event) (h : isProjectError e = false) :
    handleFailure api e key w evs = (StepResult.done (Outcome.abandoned e), key, w, evs) := by
  simp [handleFailure, h]

lemma handleFailure_project_empty {σ : Type} (api : TicketApi σ) (e key : String) (w w1 : σ)
    (evs : List Event) (h : isProjectError e = true)
    (hp : api.getProjects w = (Except.ok [], w1)) :
    handleFailure api e key w evs =
      (StepResult.fatal e, key, w1, evs ++ [Event.listProjects]) := by
  simp [handleFailure, h, hp]

lemma handleFailure_project_listing_error {σ : Type} (api : TicketApi σ) (e pe key : String)
    (w w1 : σ) (evs : List Event) (h : isProjectError e = true)
    (hp : api.getProjects w = (Except.error pe, w1)) :
    handleFailure api e key w evs =
      (StepResult.fatal e, key, w1, evs ++ [Event.listProjects]) := by
  simp [handleFailure, h, hp]

lemma handleFailure_project_choose {σ : Type} (api : TicketApi σ) (e key : String) (w w1 : σ)
    (evs : List Event) (p : Project) (ps : List Project) (h : isProjectError e = true)
    (hp : api.getProjects w = (Except.ok (p :: ps), w1)) :
    handleFailure api e key w evs =
      (StepResult.retry, chooseProjectKey (p :: ps) (api.ask w1).1, (api.ask w1).2,
        evs ++ [Event.listProjects, Event.prompt (api.ask w1).1]) := by
  simp [handleFailure, h, hp]

lemma reconcileStep_search_error {σ : Type} (api : TicketApi σ) (r : String)
    (lf : List String) (f : Finding) (key : String) (w w1 : σ) (e : String)
    (hs : api.searchIssues w key f.summary = (Except.error e, w1)) :
    reconcileStep api r lf f key w =
      handleFailure api e key w1 [Event.search (mkJql key (escapeQuotes f.summary))] := by
  simp only [reconcileStep, hs]

lemma reconcileStep_update_ok {σ : Type} (api : TicketApi σ) (r : String)
    (lf : List String) (f : Finding) (key : String) (w w1 w2 : σ) (t t2 : Ticket)
    (ts : List Ticket)
    (hs : api.searchIssues w key f.summary = (Except.ok (t :: ts), w1))
    (hu : api.updateIssue w1 t.key f.summary (mkDescription r lf f.description) =
      (Except.ok t2, w2)) :
    reconcileStep api r lf f key w =
      (StepResult.done (Outcome.updated t.key), key, w2,
        [Event.search (mkJql key (escapeQuotes f.summary)),
         Event.update t.key f.summary (mkDescription r lf f.description)]) := by
  simp only [reconcileStep, hs, hu]

lemma reconcileStep_update_error {σ : Type} (api : TicketApi σ) (r : String)
    (lf : List String) (f : Finding) (key : String) (w w1 w2 : σ) (t : Ticket)
    (ts : List Ticket) (e : String)
    (hs : api.searchIssues w key f.summary = (Except.ok (t :: ts), w1))
    (hu : api.updateIssue w1 t.key f.summary (mkDescription r lf f.description) =
      (Except.error e, w2)) :
    reconcileStep api r lf f key w =
      handleFailure api e key w2
        [Event.search (mkJql key (escapeQuotes f.summary)),
         Event.update t.key f.summary (mkDescription r lf f.description)] := by
  simp only [reconcileStep, hs, hu]

lemma reconcileStep_create_ok {σ : Type} (api : TicketApi σ) (r : String)
    (lf : List String) (f : Finding) (key : String) (w w1 w2 : σ) (tk : Ticket)
    (hs : api.searchIssues w key f.summary = (Except.ok [], w1))
    (hc : api.createIssue w1 key f.summary (mkDescription r lf f.description) "Task" =
      (Except.ok tk, w2)) :
    reconcileStep api r lf f key w =
      (StepResult.done (Outcome.created tk.key), key, w2,
        [Event.search (mkJql key (escapeQuotes f.summary)),
         Event.create key f.summary (mkDescription r lf f.description) "Task"]) := by
  simp only [reconcileStep, hs, hc]

lemma reconcileStep_create_error {σ : Type} (api : TicketApi σ) (r : String)
    (lf : List String) (f : Finding) (key : String) (w w1 w2 : σ) (e : String)
    (hs : api.searchIssues w key f.summary = (Except.ok [], w1))
    (hc : api.createIssue w1 key f.summary (mkDescription r lf f.description) "Task" =
      (Except.error e, w2)) :
    reconcileStep api r lf f key w =
      handleFailure api e key w2
        [Event.search (mkJql key (escapeQuotes f.summary)),
         Event.create key f.summary (mkDescription r lf f.description) "Task"] := by
  simp only [reconcileStep, hs, hc]

lemma reconcileFinding_done {σ : Type} {api : TicketApi σ} {r : String} {lf : List String}
    {f : Finding} {key k1 : String} {w w1 : σ} {o : Outcome} {evs : List Event}
    (hstep : reconcileStep api r lf f key w = (StepResult.done o, k1, w1, evs)) (fuel : Nat) :
    reconcileFinding api r lf f (fuel + 1) key w =
      some (FindingResult.outcome o, k1, w1, evs) := by
  simp [reconcileFinding, hstep]

lemma reconcileFinding_fatal {σ : Type} {api : TicketApi σ} {r : String} {lf : List String}
    {f : Finding} {key k1 : String} {w w1 : σ} {e : String} {evs : List Event}
    (hstep : reconcileStep api r lf f key w = (StepResult.fatal e, k1, w1, evs)) (fuel : Nat) :
    reconcileFinding api r lf f (fuel + 1) key w =
      some (FindingResult.fatal e, k1, w1, evs) := by
  simp [reconcileFinding, hstep]

lemma reconcileFinding_retry {σ : Type} {api : TicketApi σ} {r : String} {lf : List String}
    {f : Finding} {key k1 : String} {w w1 : σ} {evs : List Event}
    (hstep : reconcileStep api r lf f key w = (StepResult.retry, k1, w1, evs)) (fuel : Nat) :
    reconcileFinding api r lf f (fuel + 1) key w =
      (reconcileFinding api r lf f fuel k1 w1).map fun x =>
        (x.1, x.2.1, x.2.2.1, evs ++ x.2.2.2) := by
  cases hrec : reconcileFinding api r lf f fuel k1 w1 with
  | none => simp [reconcileFinding, hstep, hrec]
  | some x =>
    obtain ⟨res, k2, w2, evs2⟩ := x
    simp [reconcileFinding, hstep, hrec]

lemma reconcile_cons_outcome {σ : Type} {api : TicketApi σ} {r : String} {lf : List String}
    {f : Finding} {fs : List Finding} {fuel : Nat} {key k1 k2 : String} {w w1 w2 : σ}
    {o : Outcome} {rr : RunResult} {evs evs2 : List Event}
    (hf : reconcileFinding api r lf f fuel key w = some (FindingResult.outcome o, k1, w1, evs))
    (hrest : reconcile api r lf fs fuel k1 w1 = some (rr, k2, w2, evs2)) :
    reconcile api r lf (f :: fs) fuel key w = some (combineRun o rr, k2, w2, evs ++ evs2) := by
  simp [reconcile, hf, hrest]

lemma reconcile_cons_fatal {σ : Type} {api : TicketApi σ} {r : String} {lf : List String}
    {f : Finding} {fs : List Finding} {fuel : Nat} {key k1 : String} {w w1 : σ}
    {e : String} {evs : List Event}
    (hf : reconcileFinding api r lf f fuel key w = some (FindingResult.fatal e, k1, w1, evs)) :
    reconcile api r lf (f :: fs) fuel key w = some (RunResult.aborted [] e, k1, w1, evs) := by
  simp [reconcile, hf]

lemma handleFailure_key_eq {σ : Type} {api : TicketApi σ} {e key k1 : String} {w w1 : σ}
    {evs evs1 : List Event} {res : StepResult}
    (h : handleFailure api e key w evs = (res, k1, w1, evs1)) (hne : res ≠ StepResult.retry) :
    k1 = key := by
  unfold handleFailure at h
  split at h
  · split at h
    · split at h
      · cases h; rfl
      · cases h; exact absurd rfl hne
    · cases h; rfl
  · cases h; rfl

lemma reconcileStep_key_eq {σ : Type} {api : TicketApi σ} {r : String} {lf : List String}
    {f : Finding} {key k1 : String} {w w1 : σ} {evs : List Event} {res : StepResult}
    (h : reconcileStep api r lf f key w = (res, k1, w1, evs)) (hne : res ≠ StepResult.retry) :
    k1 = key := by
  simp only [reconcileStep] at h
  split at h
  · exact handleFailure_key_eq h hne
  · split at h
    · cases h; rfl
    · exact handleFailure_key_eq h hne
  · split at h
    · cases h; rfl
    · exact handleFailure_key_eq h hne

lemma handleFailure_retry_spec {σ : Type} {api : TicketApi σ} {e key k1 : String} {w w1 : σ}
    {evs evs1 : List Event}
    (h : handleFailure api e key w evs = (StepResult.retry, k1, w1, evs1)) :
    ∃ (p : Project) (ps : List Project) (ans : String),
      k1 = chooseProjectKey (p :: ps) ans ∧ Event.listProjects ∈ evs1 ∧
        Event.prompt ans ∈ evs1 := by
  by_cases hpe : isProjectError e
  · rcases hgp : api.getProjects w with ⟨pres, w2⟩
    cases pres with
    | error pe =>
      rw [handleFailure_project_listing_error api e pe key w w2 evs hpe hgp] at h
      simp at h
    | ok projects =>
      cases projects with
      | nil =>
        rw [handleFailure_project_empty api e key w w2 evs hpe hgp] at h
        simp at h
      | cons p ps =>
        rw [handleFailure_project_choose api e key w w2 evs p ps hpe hgp] at h
        simp only [Prod.mk.injEq] at h
        obtain ⟨-, hk, -, hevs⟩ := h
        exact ⟨p, ps, (api.ask w2).1, hk.symm, by simp [← hevs], by simp [← hevs]⟩
  · rw [handleFailure_not_project api e key w evs (by simpa using hpe)] at h
    simp at h

lemma reconcileStep_retry_spec {σ : Type} {api : TicketApi σ} {r : String} {lf : List String}
    {f : Finding} {key k1 : String} {w w1 : σ} {evs : List Event}
    (h : reconcileStep api r lf f key w = (StepResult.retry, k1, w1, evs)) :
    ∃ (p : Project) (ps : List Project) (ans : String),
      k1 = chooseProjectKey (p :: ps) ans ∧ Event.listProjects ∈ evs ∧
        Event.prompt ans ∈ evs := by
  simp only [reconcileStep] at h
  split at h
  · exact handleFailure_retry_spec h
  · split at h
    · simp at h
    · exact handleFailure_retry_spec h
  · split at h
    · simp at h
    · exact handleFailure_retry_spec h

lemma handleFailure_events_head {σ : Type} (api : TicketApi σ) (e key : String) (w : σ)
    (ev : Event) (rest : List Event) :
    (handleFailure api e key w (ev :: rest)).2.2.2.head? = some ev := by
  unfold handleFailure
  split
  · split
    · split <;> simp
    · simp
  · simp

lemma reconcileStep_events_head {σ : Type} (api : TicketApi σ) (r : String)
    (lf : List String) (f : Finding) (key : String) (w : σ) :
    (reconcileStep api r lf f key w).2.2.2.head? =
      some (Event.search (mkJql key (escapeQuotes f.summary))) := by
  simp only [reconcileStep]
  split
  · exact handleFailure_events_head ..
  · split
    · simp
    · exact handleFailure_events_head ..
  · split
    · simp
    · exact handleFailure_events_head ..

lemma reconcileFinding_events_head {σ : Type} {api : TicketApi σ} {r : String}
    {lf : List String} {f : Finding} :
    ∀ {fuel : Nat} {key : String} {w : σ} {x : FindingResult × String × σ × List Event},
      reconcileFinding api r lf f fuel key w = some x →
      x.2.2.2.head? = some (Event.search (mkJql key (escapeQuotes f.summary))) := by
  intro fuel
  induction fuel with
  | zero => intro key w x h; simp [reconcileFinding] at h
  | succ fuel ih =>
    intro key w x h
    rcases hstep : reconcileStep api r lf f key w with ⟨res, k1, w1, evs⟩
    have hev : evs.head? = some (Event.search (mkJql key (escapeQuotes f.summary))) := by
      have h2 := reconcileStep_events_head api r lf f key w
      rw [hstep] at h2
      exact h2
    cases res with
    | done o =>
      rw [reconcileFinding_done hstep fuel] at h
      cases h
      simpa using hev
    | fatal e =>
      rw [reconcileFinding_fatal hstep fuel] at h
      cases h
      simpa using hev
    | retry =>
      rw [reconcileFinding_retry hstep fuel] at h
      rcases hrec : reconcileFinding api r lf f fuel k1 w1 with _ | y
      · rw [hrec] at h; simp at h
      · rw [hrec] at h
        simp only [Option.map_some'] at h
        cases h
        cases evs with
        | nil => simp at hev
        | cons a t => simpa using hev

lemma map_id_of_forall {α : Type} (L : List α) (fn : α → α) (h : ∀ t ∈ L, fn t = t) :
    L.map fn = L := by
  induction L with
  | nil => rfl
  | cons a l ih =>
    simp only [List.map_cons, h a (by simp), List.cons.injEq, true_and]
    exact ih fun t ht => h t (by simp [ht])

lemma mem_createdTickets {K r : String} {lf : List String} :
    ∀ (F : List Finding) (i : Nat) (t : StoredTicket), t ∈ createdTickets K r lf i F →
      ∃ j g, j < F.length ∧ g ∈ F ∧
        t = ⟨mkTicketKey K (i + j), K, g.summary, mkDescription r lf g.description⟩ := by
  intro F
  induction F with
  | nil => intro i t ht; simp [createdTickets] at ht
  | cons f fs ih =>
    intro i t ht
    simp only [createdTickets, List.mem_cons] at ht
    rcases ht with ht | ht
    · exact ⟨0, f, by simp, by simp, by simpa using ht⟩
    · obtain ⟨j, g, hj, hg, ht⟩ := ih (i + 1) t ht
      refine ⟨j + 1, g, by simp; omega, by simp [hg], ?_⟩
      have harith : i + 1 + j = i + (j + 1) := by omega
      rw [harith] at ht
      exact ht

lemma storeSearch_createdTickets {K r : String} {lf : List String} :
    ∀ (F : List Finding) (i : Nat) (f : Finding), summariesIndependent F → f ∈ F →
      ∃ j, j < F.length ∧
        storeSearch (createdTickets K r lf i F) K f.summary =
          [⟨mkTicketKey K (i + j), K, f.summary, mkDescription r lf f.description⟩] ∧
        (∀ t ∈ createdTickets K r lf i F, t.key = mkTicketKey K (i + j) →
          t = ⟨mkTicketKey K (i + j), K, f.summary, mkDescription r lf f.description⟩) := by
  intro F
  induction F with
  | nil => intro i f _ hf; simp at hf
  | cons g G ih =>
    intro i f hind hf
    have hpair := (List.pairwise_cons.mp hind).1
    have hindG := (List.pairwise_cons.mp hind).2
    rcases List.mem_cons.mp hf with hfg | hfG
    · subst hfg
      refine ⟨0, by simp, ?_, ?_⟩
      · simp only [createdTickets, storeSearch, List.filter_cons]
        rw [if_pos (by simp [strContains_self])]
        have hrest : (createdTickets K r lf (i + 1) G).filter
            (fun t => t.project == K && strContains t.summary f.summary) = [] := by
          rw [List.filter_eq_nil_iff]
          intro t ht
          obtain ⟨j, g', _, hg', rfl⟩ := mem_createdTickets G (i + 1) t ht
          have := (hpair g' hg').2
          simp [this]
        rw [hrest]
        simp [storeSearch]
      · intro t ht hkey
        simp only [createdTickets, List.mem_cons] at ht
        rcases ht with rfl | ht
        · simp
        · obtain ⟨j, g', _, hg', rfl⟩ := mem_createdTickets G (i + 1) t ht
          exfalso
          have := mkTicketKey_inj K hkey
          omega
    · obtain ⟨j, hj, hsearch, huniq⟩ := ih (i + 1) f hindG hfG
      refine ⟨j + 1, by simp; omega, ?_, ?_⟩
      · simp only [createdTickets, storeSearch, List.filter_cons]
        rw [if_neg (by simp [(hpair f hfG).1])]
        have harith : i + 1 + j = i + (j + 1) := by omega
        rw [← harith]
        exact hsearch
      · intro t ht hkey
        have harith : i + 1 + j = i + (j + 1) := by omega
        simp only [createdTickets, List.mem_cons] at ht
        rcases ht with rfl | ht
        · exfalso
          rw [← harith] at hkey
          have := mkTicketKey_inj K hkey
          omega
        · rw [← harith] at hkey ⊢
          exact huniq t ht hkey

lemma jiraStore_first_run {r K : String} {lf : List String} :
    ∀ (F : List Finding) (ts : List StoredTicket) (i fuel : Nat),
      summariesIndependent F →
      (∀ t ∈ ts, ∀ f ∈ F, (t.project == K && strContains t.summary f.summary) = false) →
      ∃ evs, reconcile jiraStore r lf F (fuel + 1) K ⟨ts, i⟩ =
        some (RunResult.finished (createdOutcomes K i F), K,
          ⟨ts ++ createdTickets K r lf i F, i + F.length⟩, evs) := by
  intro F
  induction F with
  | nil =>
    intro ts i fuel _ _
    exact ⟨[], by simp [reconcile, createdOutcomes, createdTickets]⟩
  | cons f fs ih =>
    intro ts i fuel hind hnomatch
    have hs : jiraStore.searchIssues ⟨ts, i⟩ K f.summary = (Except.ok [], ⟨ts, i⟩) := by
      simp only [jiraStore]
      have hnil : storeSearch ts K f.summary = [] := by
        simp only [storeSearch]
        rw [List.filter_eq_nil_iff]
        intro t ht
        simp [hnomatch t ht f (by simp)]
      rw [hnil]
      simp
    have hc : jiraStore.createIssue ⟨ts, i⟩ K f.summary (mkDescription r lf f.description)
        "Task" =
        (Except.ok ⟨mkTicketKey K i⟩,
          ⟨ts ++ [⟨mkTicketKey K i, K, f.summary, mkDescription r lf f.description⟩],
            i + 1⟩) := rfl
    have hstep := reconcileStep_create_ok jiraStore r lf f K ⟨ts, i⟩ _ _ _ hs hc
    have hfind := reconcileFinding_done hstep fuel
    have hindfs : summariesIndependent fs := (List.pairwise_cons.mp hind).2
    have hpair := (List.pairwise_cons.mp hind).1
    have hnomatch2 : ∀ t ∈ ts ++
        [⟨mkTicketKey K i, K, f.summary, mkDescription r lf f.description⟩],
        ∀ g ∈ fs, (t.project == K && strContains t.summary g.summary) = false := by
      intro t ht g hg
      rcases List.mem_append.mp ht with ht | ht
      · exact hnomatch t ht g (by simp [hg])
      · simp only [List.mem_singleton] at ht
        subst ht
        simp [(hpair g hg).1]
    obtain ⟨evs2, hrest⟩ := ih
      (ts ++ [⟨mkTicketKey K i, K, f.summary, mkDescription r lf f.description⟩])
      (i + 1) fuel hindfs hnomatch2
    refine ⟨[Event.search (mkJql K (escapeQuotes f.summary)),
      Event.create K f.summary (mkDescription r lf f.description) "Task"] ++ evs2, ?_⟩
    rw [reconcile_cons_outcome hfind hrest]
    simp [combineRun, createdOutcomes, createdTickets, List.append_assoc, Store.mk.injEq]
    try omega

lemma jiraStore_second_run {r K : String} {lf : List String} {F : List Finding} {N : Nat}
    (hind : summariesIndependent F) :
    ∀ (G : List Finding) (fuel : Nat), (∀ g ∈ G, g ∈ F) →
      ∃ os evs, reconcile jiraStore r lf G (fuel + 1) K ⟨createdTickets K r lf 0 F, N⟩ =
        some (RunResult.finished os, K, ⟨createdTickets K r lf 0 F, N⟩, evs) ∧
        os.length = G.length ∧ ∀ o ∈ os, ∃ k, o = Outcome.updated k := by
  intro G
  induction G with
  | nil =>
    intro fuel _
    exact ⟨[], [], by simp [reconcile], rfl, by simp⟩
  | cons g G2 ih =>
    intro fuel hsub
    obtain ⟨j, hj, hsearch, huniq⟩ :=
      @storeSearch_createdTickets K r lf F 0 g hind (hsub g (by simp))
    have hs : jiraStore.searchIssues ⟨createdTickets K r lf 0 F, N⟩ K g.summary =
        (Except.ok [⟨mkTicketKey K (0 + j)⟩], ⟨createdTickets K r lf 0 F, N⟩) := by
      simp only [jiraStore, hsearch, List.map_cons, List.map_nil]
    have hmapid : (createdTickets K r lf 0 F).map
        (fun t => if t.key == mkTicketKey K (0 + j) then
          { t with summary := g.summary, description := mkDescription r lf g.description }
        else t) = createdTickets K r lf 0 F := by
      apply map_id_of_forall
      intro t ht
      by_cases hk : t.key == mkTicketKey K (0 + j)
      · rw [if_pos hk]
        rw [huniq t ht (by simpa using hk)]
      · rw [if_neg hk]
    have hu : jiraStore.updateIssue ⟨createdTickets K r lf 0 F, N⟩ (mkTicketKey K (0 + j))
        g.summary (mkDescription r lf g.description) =
        (Except.ok ⟨mkTicketKey K (0 + j)⟩, ⟨createdTickets K r lf 0 F, N⟩) := by
      simp only [jiraStore]
      rw [hmapid]
    have hstep := reconcileStep_update_ok jiraStore r lf g K
      ⟨createdTickets K r lf 0 F, N⟩ ⟨createdTickets K r lf 0 F, N⟩
      ⟨createdTickets K r lf 0 F, N⟩ ⟨mkTicketKey K (0 + j)⟩ ⟨mkTicketKey K (0 + j)⟩ [] hs hu
    have hfind := reconcileFinding_done hstep fuel
    obtain ⟨os2, evs2, hrest, hlen, hupd⟩ := ih fuel fun x hx => hsub x (by simp [hx])
    refine ⟨Outcome.updated (mkTicketKey K (0 + j)) :: os2,
      [Event.search (mkJql K (escapeQuotes g.summary)),
        Event.update (mkTicketKey K (0 + j)) g.summary (mkDescription r lf g.description)] ++
        evs2, ?_, by simp [hlen], ?_⟩
    · rw [reconcile_cons_outcome hfind hrest]
      rfl
    · intro o ho
      rcases List.mem_cons.mp ho with rfl | ho
      · exact ⟨mkTicketKey K (0 + j), rfl⟩
      · exact hupd o ho

lemma head?_append_of_head? {α : Type} {l l2 : List α} {a : α} (h : l.head? = some a) :
    (l ++ l2).head? = some a := by
  cases l <;> simp_all

lemma reconcile_cons_events_head {σ : Type} {api : TicketApi σ} {r : String}
    {lf : List String} {g : Finding} {gs : List Finding} {fuel : Nat} {k1 : String} {w1 : σ}
    {x : RunResult × String × σ × List Event}
    (h : reconcile api r lf (g :: gs) fuel k1 w1 = some x) :
    x.2.2.2.head? = some (Event.search (mkJql k1 (escapeQuotes g.summary))) := by
  rcases hg : reconcileFinding api r lf g fuel k1 w1 with _ | y
  · rw [show reconcile api r lf (g :: gs) fuel k1 w1 = none by simp [reconcile, hg]] at h
    exact absurd h (by simp)
  · obtain ⟨resg, kg, wg, evsg⟩ := y
    have hhead := reconcileFinding_events_head hg
    cases resg with
    | fatal e =>
      rw [reconcile_cons_fatal hg] at h
      simp only [Option.some.injEq] at h
      cases h
      simpa using hhead
    | outcome o =>
      rcases hrest : reconcile api r lf gs fuel kg wg with _ | z
      · rw [show reconcile api r lf (g :: gs) fuel k1 w1 = none by
          simp [reconcile, hg, hrest]] at h
        exact absurd h (by simp)
      · obtain ⟨rrz, kz, wz, evsz⟩ := z
        rw [reconcile_cons_outcome hg hrest] at h
        simp only [Option.some.injEq] at h
        cases h
        exact head?_append_of_head? (by simpa using hhead)

/-- C1: for every finding, the engine first issues the JQL search built
from the current collection (project key) and the finding's summary; if
the search returns at least one ticket it updates the first one with the
finding's summary and the templated description and records
`updated(key)`; if the search returns none it creates a ticket in the
current collection and on success records `created(key)`. -/
theorem search_then_update_or_create {σ : Type} (api : TicketApi σ) (r : String)
    (lf : List String) (f : Finding) (key : String) (w : σ) (fuel : Nat) :
    ((reconcileStep api r lf f key w).2.2.2.head? =
        some (Event.search (mkJql key (escapeQuotes f.summary)))) ∧
    (∀ (t t2 : Ticket) (ts : List Ticket) (w1 w2 : σ),
        api.searchIssues w key f.summary = (Except.ok (t :: ts), w1) →
        api.updateIssue w1 t.key f.summary (mkDescription r lf f.description) =
          (Except.ok t2, w2) →
        reconcileFinding api r lf f (fuel + 1) key w =
          some (FindingResult.outcome (Outcome.updated t.key), key, w2,
            [Event.search (mkJql key (escapeQuotes f.summary)),
             Event.update t.key f.summary (mkDescription r lf f.description)])) ∧
    (∀ (tk : Ticket) (w1 w2 : σ),
        api.searchIssues w key f.summary = (Except.ok [], w1) →
        api.createIssue w1 key f.summary (mkDescription r lf f.description) "Task" =
          (Except.ok tk, w2) →
        reconcileFinding api r lf f (fuel + 1) key w =
          some (FindingResult.outcome (Outcome.created tk.key), key, w2,
            [Event.search (mkJql key (escapeQuotes f.summary)),
             Event.create key f.summary (mkDescription r lf f.description) "Task"])) := by
  refine ⟨reconcileStep_events_head api r lf f key w, ?_, ?_⟩
  · intro t t2 ts w1 w2 hs hu
    exact reconcileFinding_done (reconcileStep_update_ok api r lf f key w w1 w2 t t2 ts hs hu)
      fuel
  · intro tk w1 w2 hs hc
    exact reconcileFinding_done (reconcileStep_create_ok api r lf f key w w1 w2 tk hs hc) fuel

/-- Witness for C1 at a concrete store response: a search that returns an
existing ticket leads to an `updated` outcome for that ticket's key. -/
theorem search_then_update_or_create_witness :
    reconcileFinding
        (oracleApi (Except.ok [⟨"DOT-1"⟩]) (Except.ok ⟨"DOT-9"⟩) (Except.ok ⟨"DOT-1"⟩)
          (Except.ok []) "")
        "o/r" [] ⟨"S", "D"⟩ 1 "DOT" () =
      some (FindingResult.outcome (Outcome.updated "DOT-1"), "DOT", (),
        [Event.search (mkJql "DOT" (escapeQuotes "S")),
         Event.update "DOT-1" "S" (mkDescription "o/r" [] "D")]) :=
  (search_then_update_or_create
    (oracleApi (Except.ok [⟨"DOT-1"⟩]) (Except.ok ⟨"DOT-9"⟩) (Except.ok ⟨"DOT-1"⟩)
      (Except.ok []) "")
    "o/r" [] ⟨"S", "D"⟩ "DOT" () 0).2.1 ⟨"DOT-1"⟩ ⟨"DOT-1"⟩ [] () () rfl rfl

/-- C2: a failure raised by the create-or-update step is routed to the
resolver-retry branch (the engine lists the available projects) exactly
when `isProjectError` accepts its message — i.e. when the message carries
the collection-required signal (`valid project is required` /
`project is required` in the JSON-encoded message) or the `400` status
marker; any other failure yields an `abandoned` outcome for that finding
only, after which the run continues with the remaining findings, which
still reach terminal outcomes. -/
theorem failure_classification {σ : Type} (api : TicketApi σ) (r : String)
    (lf : List String) (f : Finding) (fs : List Finding) (key : String) (w : σ) :
    (∀ (w1 w2 : σ) (e : String) (fuel : Nat),
        api.searchIssues w key f.summary = (Except.ok [], w1) →
        api.createIssue w1 key f.summary (mkDescription r lf f.description) "Task" =
          (Except.error e, w2) →
        isProjectError e = false →
        reconcileFinding api r lf f (fuel + 1) key w =
          some (FindingResult.outcome (Outcome.abandoned e), key, w2,
            [Event.search (mkJql key (escapeQuotes f.summary)),
             Event.create key f.summary (mkDescription r lf f.description) "Task"])) ∧
    (∀ (t : Ticket) (ts : List Ticket) (w1 w2 : σ) (e : String) (fuel : Nat),
        api.searchIssues w key f.summary = (Except.ok (t :: ts), w1) →
        api.updateIssue w1 t.key f.summary (mkDescription r lf f.description) =
          (Except.error e, w2) →
        isProjectError e = false →
        reconcileFinding api r lf f (fuel + 1) key w =
          some (FindingResult.outcome (Outcome.abandoned e), key, w2,
            [Event.search (mkJql key (escapeQuotes f.summary)),
             Event.update t.key f.summary (mkDescription r lf f.description)])) ∧
    (∀ (w1 w2 : σ) (e : String),
        api.searchIssues w key f.summary = (Except.ok [], w1) →
        api.createIssue w1 key f.summary (mkDescription r lf f.description) "Task" =
          (Except.error e, w2) →
        isProjectError e = true →
        ∃ (res : StepResult) (k1 : String) (w3 : σ) (evs : List Event),
          reconcileStep api r lf f key w = (res, k1, w3, evs) ∧
          Event.listProjects ∈ evs ∧
          (res = StepResult.retry ∨ ∃ e2, res = StepResult.fatal e2)) ∧
    (∀ (t : Ticket) (ts : List Ticket) (w1 w2 : σ) (e : String),
        api.searchIssues w key f.summary = (Except.ok (t :: ts), w1) →
        api.updateIssue w1 t.key f.summary (mkDescription r lf f.description) =
          (Except.error e, w2) →
        isProjectError e = true →
        ∃ (res : StepResult) (k1 : String) (w3 : σ) (evs : List Event),
          reconcileStep api r lf f key w = (res, k1, w3, evs) ∧
          Event.listProjects ∈ evs ∧
          (res = StepResult.retry ∨ ∃ e2, res = StepResult.fatal e2)) ∧
    (∀ (fuel : Nat) (e k1 k2 : String) (w1 w2 : σ) (os : List Outcome)
        (evs evs2 : List Event),
        reconcileFinding api r lf f fuel key w =
          some (FindingResult.outcome (Outcome.abandoned e), k1, w1, evs) →
        reconcile api r lf fs fuel k1 w1 = some (RunResult.finished os, k2, w2, evs2) →
        reconcile api r lf (f :: fs) fuel key w =
          some (RunResult.finished (Outcome.abandoned e :: os), k2, w2, evs ++ evs2)) := by
  have resolver_branch : ∀ (e : String) (w2 : σ) (evs : List Event),
      isProjectError e = true →
      ∃ (res : StepResult) (k1 : String) (w3 : σ) (evs2 : List Event),
        handleFailure api e key w2 evs = (res, k1, w3, evs2) ∧
        Event.listProjects ∈ evs2 ∧
        (res = StepResult.retry ∨ ∃ e2, res = StepResult.fatal e2) := by
    intro e w2 evs hpe
    rcases hgp : api.getProjects w2 with ⟨pres, w3⟩
    cases pres with
    | error pe =>
      exact ⟨_, _, _, _, handleFailure_project_listing_error api e pe key w2 w3 evs hpe hgp,
        by simp, Or.inr ⟨e, rfl⟩⟩
    | ok projects =>
      cases projects with
      | nil =>
        exact ⟨_, _, _, _, handleFailure_project_empty api e key w2 w3 evs hpe hgp,
          by simp, Or.inr ⟨e, rfl⟩⟩
      | cons p ps =>
        exact ⟨_, _, _, _, handleFailure_project_choose api e key w2 w3 evs p ps hpe hgp,
          by simp, Or.inl rfl⟩
  refine ⟨?_, ?_, ?_, ?_, ?_⟩
  · intro w1 w2 e fuel hs hc hno
    have hstep := reconcileStep_create_error api r lf f key w w1 w2 e hs hc
    rw [handleFailure_not_project api e key w2 _ hno] at hstep
    exact reconcileFinding_done hstep fuel
  · intro t ts w1 w2 e fuel hs hu hno
    have hstep := reconcileStep_update_error api r lf f key w w1 w2 t ts e hs hu
    rw [handleFailure_not_project api e key w2 _ hno] at hstep
    exact reconcileFinding_done hstep fuel
  · intro w1 w2 e hs hc hpe
    obtain ⟨res, k1, w3, evs2, hh, hmem, hres⟩ := resolver_branch e w2
      [Event.search (mkJql key (escapeQuotes f.summary)),
       Event.create key f.summary (mkDescription r lf f.description) "Task"] hpe
    exact ⟨res, k1, w3, evs2,
      by rw [reconcileStep_create_error api r lf f key w w1 w2 e hs hc]; exact hh, hmem, hres⟩
  · intro t ts w1 w2 e hs hu hpe
    obtain ⟨res, k1, w3, evs2, hh, hmem, hres⟩ := resolver_branch e w2
      [Event.search (mkJql key (escapeQuotes f.summary)),
       Event.update t.key f.summary (mkDescription r lf f.description)] hpe
    exact ⟨res, k1, w3, evs2,
      by rw [reconcileStep_update_error api r lf f key w w1 w2 t ts e hs hu]; exact hh,
      hmem, hres⟩
  · intro fuel e k1 k2 w1 w2 os evs evs2 hf hrest
    exact reconcile_cons_outcome hf hrest

/-- Witness for C2: a rate-limit style failure (no collection signal) on
create yields an `abandoned` outcome and the run still finishes the
remaining finding with a terminal outcome. -/
theorem failure_classification_witness :
    reconcile
        (oracleApi (Except.ok []) (Except.error "429 rate limited") (Except.error "x")
          (Except.ok []) "")
        "o/r" [] [⟨"S", "D"⟩, ⟨"S2", "D2"⟩] 1 "DOT" () =
      some (RunResult.finished [Outcome.abandoned "429 rate limited",
          Outcome.abandoned "429 rate limited"], "DOT", (),
        [Event.search (mkJql "DOT" (escapeQuotes "S")),
         Event.create "DOT" "S" (mkDescription "o/r" [] "D") "Task",
         Event.search (mkJql "DOT" (escapeQuotes "S2")),
         Event.create "DOT" "S2" (mkDescription "o/r" [] "D2") "Task"]) :=
  (failure_classification
      (oracleApi (Except.ok []) (Except.error "429 rate limited") (Except.error "x")
        (Except.ok []) "")
      "o/r" [] ⟨"S", "D"⟩ [⟨"S2", "D2"⟩] "DOT" ()).2.2.2.2 1 "429 rate limited" "DOT" "DOT"
    () () [Outcome.abandoned "429 rate limited"]
    [Event.search (mkJql "DOT" (escapeQuotes "S")),
     Event.create "DOT" "S" (mkDescription "o/r" [] "D") "Task"]
    [Event.search (mkJql "DOT" (escapeQuotes "S2")),
     Event.create "DOT" "S2" (mkDescription "o/r" [] "D2") "Task"]
    (by decide) (by decide)

/-- C9: a failure raised by the search call itself is handled by the same
classification as create/update failures — a message carrying the
collection signal sends the engine into the resolver-retry branch for the
same finding, and any other message abandons the finding, after which the
run continues with the next findings. -/
theorem search_failure_classification {σ : Type} (api : TicketApi σ) (r : String)
    (lf : List String) (f : Finding) (fs : List Finding) (key : String) (w : σ) :
    (∀ (w1 : σ) (e : String) (fuel : Nat),
        api.searchIssues w key f.summary = (Except.error e, w1) →
        isProjectError e = false →
        reconcileFinding api r lf f (fuel + 1) key w =
          some (FindingResult.outcome (Outcome.abandoned e), key, w1,
            [Event.search (mkJql key (escapeQuotes f.summary))])) ∧
    (∀ (w1 : σ) (e : String),
        api.searchIssues w key f.summary = (Except.error e, w1) →
        isProjectError e = true →
        ∃ (res : StepResult) (k1 : String) (w3 : σ) (evs : List Event),
          reconcileStep api r lf f key w = (res, k1, w3, evs) ∧
          Event.listProjects ∈ evs ∧
          (res = StepResult.retry ∨ ∃ e2, res = StepResult.fatal e2)) ∧
    (∀ (w1 : σ) (e : String) (fuel : Nat) (k2 : String) (w2 : σ) (os : List Outcome)
        (evs2 : List Event),
        api.searchIssues w key f.summary = (Except.error e, w1) →
        isProjectError e = false →
        reconcile api r lf fs (fuel + 1) key w1 = some (RunResult.finished os, k2, w2, evs2) →
        reconcile api r lf (f :: fs) (fuel + 1) key w =
          some (RunResult.finished (Outcome.abandoned e :: os), k2, w2,
            [Event.search (mkJql key (escapeQuotes f.summary))] ++ evs2)) := by
  have habandon : ∀ (w1 : σ) (e : String) (fuel : Nat),
      api.searchIssues w key f.summary = (Except.error e, w1) →
      isProjectError e = false →
      reconcileFinding api r lf f (fuel + 1) key w =
        some (FindingResult.outcome (Outcome.abandoned e), key, w1,
          [Event.search (mkJql key (escapeQuotes f.summary))]) := by
    intro w1 e fuel hs hno
    have hstep := reconcileStep_search_error api r lf f key w w1 e hs
    rw [handleFailure_not_project api e key w1 _ hno] at hstep
    exact reconcileFinding_done hstep fuel
  refine ⟨habandon, ?_, ?_⟩
  · intro w1 e hs hpe
    have hstep := reconcileStep_search_error api r lf f key w w1 e hs
    rcases hgp : api.getProjects w1 with ⟨pres, w3⟩
    cases pres with
    | error pe =>
      rw [handleFailure_project_listing_error api e pe key w1 w3 _ hpe hgp] at hstep
      exact ⟨_, _, _, _, hstep, by simp, Or.inr ⟨e, rfl⟩⟩
    | ok projects =>
      cases projects with
      | nil =>
        rw [handleFailure_project_empty api e key w1 w3 _ hpe hgp] at hstep
        exact ⟨_, _, _, _, hstep, by simp, Or.inr ⟨e, rfl⟩⟩
      | cons p ps =>
        rw [handleFailure_project_choose api e key w1 w3 _ p ps hpe hgp] at hstep
        exact ⟨_, _, _, _, hstep, by simp, Or.inl rfl⟩
  · intro w1 e fuel k2 w2 os evs2 hs hno hrest
    exact reconcile_cons_outcome (habandon w1 e fuel hs hno) hrest

/-- Witness for C9: a search failure without the collection signal
abandons the finding and the run proceeds to the next finding. -/
theorem search_failure_classification_witness :
    reconcile
        (oracleApi (Except.error "401 Unauthorized") (Except.error "x") (Except.error "x")
          (Except.ok []) "")
        "o/r" [] [⟨"S", "D"⟩, ⟨"S2", "D2"⟩] 1 "DOT" () =
      some (RunResult.finished [Outcome.abandoned "401 Unauthorized",
          Outcome.abandoned "401 Unauthorized"], "DOT", (),
        [Event.search (mkJql "DOT" (escapeQuotes "S"))] ++
          [Event.search (mkJql "DOT" (escapeQuotes "S2"))]) :=
  (search_failure_classification
      (oracleApi (Except.error "401 Unauthorized") (Except.error "x") (Except.error "x")
        (Except.ok []) "")
      "o/r" [] ⟨"S", "D"⟩ [⟨"S2", "D2"⟩] "DOT" ()).2.2 () "401 Unauthorized" 0 "DOT" ()
    [Outcome.abandoned "401 Unauthorized"]
    [Event.search (mkJql "DOT" (escapeQuotes "S2"))] rfl (by decide) (by decide)

/-- C3 (amended): when the project listing returned during collection
recovery is empty, the original error is rethrown and the whole run stops:
the result is an aborted run carrying the underlying systemic error, the
remaining findings are never attempted, and no per-finding `abandoned`
outcome is recorded for the current or the remaining findings. -/
theorem resolver_exhaustion_aborts_run {σ : Type} (api : TicketApi σ) (r : String)
    (lf : List String) (f : Finding) (fs : List Finding) (key : String) (w w1 w2 w3 : σ)
    (e : String) (fuel : Nat)
    (hs : api.searchIssues w key f.summary = (Except.ok [], w1))
    (hc : api.createIssue w1 key f.summary (mkDescription r lf f.description) "Task" =
      (Except.error e, w2))
    (hpe : isProjectError e = true)
    (hgp : api.getProjects w2 = (Except.ok [], w3)) :
    reconcile api r lf (f :: fs) (fuel + 1) key w =
      some (RunResult.aborted [] e, key, w3,
        [Event.search (mkJql key (escapeQuotes f.summary)),
         Event.create key f.summary (mkDescription r lf f.description) "Task",
         Event.listProjects]) := by
  have hstep := reconcileStep_create_error api r lf f key w w1 w2 e hs hc
  rw [handleFailure_project_empty api e key w2 w3 _ hpe hgp] at hstep
  exact reconcile_cons_fatal (reconcileFinding_fatal hstep fuel)

/-- Counterexample for C3 as stated: with two findings and a store whose
create step fails with `A valid project is required` while `getProjects`
returns no candidates, the run aborts with an empty outcome list — neither
the current finding nor the remaining finding is recorded as `abandoned`;
the systemic error is reported once, for the whole run. -/
theorem resolver_exhaustion_counterexample :
    reconcile
        (oracleApi (Except.ok []) (Except.error "A valid project is required")
          (Except.error "x") (Except.ok []) "")
        "o/r" [] [⟨"Missing README in o/r", "dA"⟩, ⟨"Missing LICENSE in o/r", "dB"⟩]
        1 "BAD" () =
      some (RunResult.aborted [] "A valid project is required", "BAD", (),
        [Event.search (mkJql "BAD" (escapeQuotes "Missing README in o/r")),
         Event.create "BAD" "Missing README in o/r" (mkDescription "o/r" [] "dA") "Task",
         Event.listProjects]) := by
  decide

/-- Witness for the amended C3 at a concrete oracle. -/
theorem resolver_exhaustion_aborts_run_witness :
    reconcile
        (oracleApi (Except.ok []) (Except.error "A valid project is required")
          (Except.error "x") (Except.ok []) "")
        "o/r" [] [⟨"S", "D"⟩, ⟨"S2", "D2"⟩] 1 "BAD" () =
      some (RunResult.aborted [] "A valid project is required", "BAD", (),
        [Event.search (mkJql "BAD" (escapeQuotes "S")),
         Event.create "BAD" "S" (mkDescription "o/r" [] "D") "Task",
         Event.listProjects]) :=
  resolver_exhaustion_aborts_run
    (oracleApi (Except.ok []) (Except.error "A valid project is required")
      (Except.error "x") (Except.ok []) "")
    "o/r" [] ⟨"S", "D"⟩ [⟨"S2", "D2"⟩] "BAD" () () () () "A valid project is required" 0
    rfl rfl (by decide) rfl

/-- C4: the current project key is the only engine state threaded across
findings and only the resolver-recovery branch replaces it: an iteration
that does not retry leaves the key unchanged; a retry sets it to the
resolver's choice (prompted answer against the listed projects); the
retried iteration of the same finding continues from the replaced key;
each finding's first action is the search against the key current at that
moment; and the key a finding ends with is the key the next finding starts
from — it is never reset between findings. -/
theorem collection_key_threading {σ : Type} (api : TicketApi σ) (r : String)
    (lf : List String) (f : Finding) (key : String) (w : σ) :
    (∀ (res : StepResult) (k1 : String) (w1 : σ) (evs : List Event),
        reconcileStep api r lf f key w = (res, k1, w1, evs) →
        res ≠ StepResult.retry → k1 = key) ∧
    (∀ (k1 : String) (w1 : σ) (evs : List Event),
        reconcileStep api r lf f key w = (StepResult.retry, k1, w1, evs) →
        ∃ (p : Project) (ps : List Project) (ans : String),
          k1 = chooseProjectKey (p :: ps) ans ∧ Event.listProjects ∈ evs ∧
            Event.prompt ans ∈ evs) ∧
    (∀ (k1 : String) (w1 : σ) (evs : List Event) (fuel : Nat),
        reconcileStep api r lf f key w = (StepResult.retry, k1, w1, evs) →
        reconcileFinding api r lf f (fuel + 1) key w =
          (reconcileFinding api r lf f fuel k1 w1).map fun x =>
            (x.1, x.2.1, x.2.2.1, evs ++ x.2.2.2)) ∧
    ((reconcileStep api r lf f key w).2.2.2.head? =
        some (Event.search (mkJql key (escapeQuotes f.summary)))) ∧
    (∀ (fuel : Nat) (o : Outcome) (k1 k2 : String) (w1 w2 : σ) (evs evs2 : List Event)
        (g : Finding) (gs : List Finding) (rr : RunResult),
        reconcileFinding api r lf f fuel key w = some (FindingResult.outcome o, k1, w1, evs) →
        reconcile api r lf (g :: gs) fuel k1 w1 = some (rr, k2, w2, evs2) →
        reconcile api r lf (f :: g :: gs) fuel key w =
          some (combineRun o rr, k2, w2, evs ++ evs2) ∧
          evs2.head? = some (Event.search (mkJql k1 (escapeQuotes g.summary)))) := by
  refine ⟨?_, ?_, ?_, reconcileStep_events_head api r lf f key w, ?_⟩
  · intro res k1 w1 evs h hne
    exact reconcileStep_key_eq h hne
  · intro k1 w1 evs h
    exact reconcileStep_retry_spec h
  · intro k1 w1 evs fuel h
    exact reconcileFinding_retry h fuel
  · intro fuel o k1 k2 w1 w2 evs evs2 g gs rr hf hrest
    exact ⟨reconcile_cons_outcome hf hrest, reconcile_cons_events_head hrest⟩

/-- Witness for C4: with a store that fails create with the collection
signal and a resolver answering `2`, the key is replaced by the second
listed project's key (`BETA`), and a successful follow-up iteration leaves
the key unchanged. -/
theorem collection_key_threading_witness :
    (∃ (p : Project) (ps : List Project) (ans : String),
      ("BETA" : String) = chooseProjectKey (p :: ps) ans ∧
        Event.listProjects ∈
          [Event.search (mkJql "BAD" (escapeQuotes "S")),
           Event.create "BAD" "S" (mkDescription "o/r" [] "D") "Task",
           Event.listProjects, Event.prompt "2"] ∧
        Event.prompt ans ∈
          [Event.search (mkJql "BAD" (escapeQuotes "S")),
           Event.create "BAD" "S" (mkDescription "o/r" [] "D") "Task",
           Event.listProjects, Event.prompt "2"]) :=
  (collection_key_threading
      (oracleApi (Except.ok []) (Except.error "project is required here") (Except.error "x")
        (Except.ok [⟨"ALPHA", "Alpha"⟩, ⟨"BETA", "Beta"⟩]) "2")
      "o/r" [] ⟨"S", "D"⟩ "BAD" ()).2.1 "BETA" ()
    [Event.search (mkJql "BAD" (escapeQuotes "S")),
     Event.create "BAD" "S" (mkDescription "o/r" [] "D") "Task",
     Event.listProjects, Event.prompt "2"] (by decide)

/-- C5 (amended): each iteration of the per-finding retry loop either
produces a terminal outcome (created, updated or abandoned) and ends the
loop, or throws the underlying error and aborts the entire run (when the
resolver lists no projects or its listing fails), or replaces the current
project key with the resolver-chosen value — obtained from the prompted
answer — before the next iteration begins; the loop never runs another
iteration except through such a resolver-provided replacement. -/
theorem retry_loop_iteration_trichotomy {σ : Type} (api : TicketApi σ) (r : String)
    (lf : List String) (f : Finding) (key : String) (w : σ) (res : StepResult) (k1 : String)
    (w1 : σ) (evs : List Event)
    (h : reconcileStep api r lf f key w = (res, k1, w1, evs)) :
    (∃ o, res = StepResult.done o ∧ k1 = key ∧ ∀ fuel,
        reconcileFinding api r lf f (fuel + 1) key w =
          some (FindingResult.outcome o, key, w1, evs)) ∨
    (∃ e, res = StepResult.fatal e ∧ k1 = key ∧ ∀ fuel,
        reconcileFinding api r lf f (fuel + 1) key w =
          some (FindingResult.fatal e, key, w1, evs)) ∨
    (res = StepResult.retry ∧
      (∃ (p : Project) (ps : List Project) (ans : String),
        k1 = chooseProjectKey (p :: ps) ans ∧ Event.prompt ans ∈ evs) ∧
      ∀ fuel, reconcileFinding api r lf f (fuel + 1) key w =
        (reconcileFinding api r lf f fuel k1 w1).map fun x =>
          (x.1, x.2.1, x.2.2.1, evs ++ x.2.2.2)) := by
  cases res with
  | done o =>
    have hk : k1 = key := reconcileStep_key_eq h (by simp)
    subst hk
    exact Or.inl ⟨o, rfl, rfl, fun fuel => reconcileFinding_done h fuel⟩
  | fatal e =>
    have hk : k1 = key := reconcileStep_key_eq h (by simp)
    subst hk
    exact Or.inr (Or.inl ⟨e, rfl, rfl, fun fuel => reconcileFinding_fatal h fuel⟩)
  | retry =>
    obtain ⟨p, ps, ans, hk, _, hpr⟩ := reconcileStep_retry_spec h
    exact Or.inr (Or.inr ⟨rfl, ⟨p, ps, ans, hk, hpr⟩,
      fun fuel => reconcileFinding_retry h fuel⟩)

/-- Counterexample for C5 as stated: when create fails with the collection
signal and the resolver lists no projects, the iteration neither produces
a terminal outcome nor replaces the collection — it rethrows the error and
the whole run aborts, with the project key left unchanged. -/
theorem retry_loop_iteration_counterexample :
    reconcileFinding
        (oracleApi (Except.ok []) (Except.error "A valid project is required")
          (Except.error "x") (Except.ok []) "")
        "o/r" [] ⟨"S", "D"⟩ 1 "BAD" () =
      some (FindingResult.fatal "A valid project is required", "BAD", (),
        [Event.search (mkJql "BAD" (escapeQuotes "S")),
         Event.create "BAD" "S" (mkDescription "o/r" [] "D") "Task",
         Event.listProjects]) := by
  decide

/-- Witness for the amended C5: a successful create iteration falls in the
terminal-outcome branch of the trichotomy. -/
theorem retry_loop_iteration_trichotomy_witness :
    (∃ o, StepResult.done (Outcome.created "DOT-7") = StepResult.done o ∧
        ("DOT" : String) = "DOT" ∧ ∀ fuel,
        reconcileFinding
            (oracleApi (Except.ok []) (Except.ok ⟨"DOT-7"⟩) (Except.error "x")
              (Except.ok []) "")
            "o/r" [] ⟨"S", "D"⟩ (fuel + 1) "DOT" () =
          some (FindingResult.outcome o, "DOT", (),
            [Event.search (mkJql "DOT" (escapeQuotes "S")),
             Event.create "DOT" "S" (mkDescription "o/r" [] "D") "Task"])) ∨
    (∃ e, StepResult.done (Outcome.created "DOT-7") = StepResult.fatal e ∧
        ("DOT" : String) = "DOT" ∧ ∀ fuel,
        reconcileFinding
            (oracleApi (Except.ok []) (Except.ok ⟨"DOT-7"⟩) (Except.error "x")
              (Except.ok []) "")
            "o/r" [] ⟨"S", "D"⟩ (fuel + 1) "DOT" () =
          some (FindingResult.fatal e, "DOT", (),
            [Event.search (mkJql "DOT" (escapeQuotes "S")),
             Event.create "DOT" "S" (mkDescription "o/r" [] "D") "Task"])) ∨
    (StepResult.done (Outcome.created "DOT-7") = StepResult.retry ∧
      (∃ (p : Project) (ps : List Project) (ans : String),
        ("DOT" : String) = chooseProjectKey (p :: ps) ans ∧
          Event.prompt ans ∈
            [Event.search (mkJql "DOT" (escapeQuotes "S")),
             Event.create "DOT" "S" (mkDescription "o/r" [] "D") "Task"]) ∧
      ∀ fuel, reconcileFinding
          (oracleApi (Except.ok []) (Except.ok ⟨"DOT-7"⟩) (Except.error "x")
            (Except.ok []) "")
          "o/r" [] ⟨"S", "D"⟩ (fuel + 1) "DOT" () =
        (reconcileFinding
            (oracleApi (Except.ok []) (Except.ok ⟨"DOT-7"⟩) (Except.error "x")
              (Except.ok []) "")
            "o/r" [] ⟨"S", "D"⟩ fuel "DOT" ()).map fun x =>
          (x.1, x.2.1, x.2.2.1,
            [Event.search (mkJql "DOT" (escapeQuotes "S")),
             Event.create "DOT" "S" (mkDescription "o/r" [] "D") "Task"] ++ x.2.2.2)) :=
  retry_loop_iteration_trichotomy
    (oracleApi (Except.ok []) (Except.ok ⟨"DOT-7"⟩) (Except.error "x") (Except.ok []) "")
    "o/r" [] ⟨"S", "D"⟩ "DOT" () (StepResult.done (Outcome.created "DOT-7")) "DOT" ()
    [Event.search (mkJql "DOT" (escapeQuotes "S")),
     Event.create "DOT" "S" (mkDescription "o/r" [] "D") "Task"] (by decide)

/-- C10 (amended): in the recovery branch (a collection-signalled failure
with a non-empty project listing), the replacement key is
`chooseProjectKey projects answer`; an answer whose longest leading digit
run — after trimming, an optional sign and a `0x` prefix, as JavaScript's
`parseInt` reads it — yields a number between 1 and the number of listed
candidates selects the key of the candidate at that position, and any
other answer is taken verbatim as the replacement key after trimming and
upper-casing. -/
theorem project_prompt_selection {σ : Type} (api : TicketApi σ) (e key : String) (w w1 : σ)
    (evs : List Event) (p : Project) (ps : List Project) (a : String)
    (hpe : isProjectError e = true)
    (hgp : api.getProjects w = (Except.ok (p :: ps), w1))
    (hask : (api.ask w1).1 = a) :
    ((handleFailure api e key w evs).2.1 = chooseProjectKey (p :: ps) a) ∧
    (∀ n : Int, jsParseInt (trimStr a) = some n → 0 < n → n ≤ ((p :: ps).length : Int) →
        ∃ q, (p :: ps).get? (n - 1).toNat = some q ∧ chooseProjectKey (p :: ps) a = q.key) ∧
    (∀ n : Int, jsParseInt (trimStr a) = some n → ¬(0 < n ∧ n ≤ ((p :: ps).length : Int)) →
        chooseProjectKey (p :: ps) a = upperStr (trimStr a)) ∧
    (jsParseInt (trimStr a) = none →
        chooseProjectKey (p :: ps) a = upperStr (trimStr a)) := by
  refine ⟨?_, ?_, ?_, ?_⟩
  · rw [handleFailure_project_choose api e key w w1 evs p ps hpe hgp, hask]
  · intro n hn h1 h2
    have hlt : (n - 1).toNat < (p :: ps).length := by
      simp only [List.length_cons] at h2 ⊢
      omega
    refine ⟨(p :: ps).get ⟨(n - 1).toNat, hlt⟩, List.get?_eq_get hlt, ?_⟩
    simp only [chooseProjectKey, hn]
    rw [if_pos ⟨h1, h2⟩, List.get?_eq_get hlt]
    simp
  · intro n hn hnot
    simp only [chooseProjectKey, hn]
    rw [if_neg hnot]
  · intro hn
    simp only [chooseProjectKey, hn]

/-- Counterexample for C10 as stated: the answer `2abc` does not parse as
an integer in the plain sense, yet with two listed projects the engine
replaces the key with the second candidate's key `BETA` (JavaScript
`parseInt("2abc")` is `2`), not with the verbatim upper-cased `2ABC`. -/
theorem project_prompt_selection_counterexample :
    (reconcileStep
          (oracleApi (Except.ok []) (Except.error "project is required here")
            (Except.error "x") (Except.ok [⟨"ALPHA", "Alpha"⟩, ⟨"BETA", "Beta"⟩]) "2abc")
          "o/r" [] ⟨"S", "D"⟩ "BAD" ()).2.1 = "BETA" ∧
      upperStr (trimStr "2abc") = "2ABC" ∧ ("BETA" : String) ≠ "2ABC" := by
  decide

/-- Witness for the amended C10: with projects `[ALPHA, BETA]` and answer
`2abc`, `parseInt` reads `2` and the second candidate's key is selected. -/
theorem project_prompt_selection_witness :
    ∃ q, ([⟨"ALPHA", "Alpha"⟩, ⟨"BETA", "Beta"⟩] : List Project).get?
        (((2 : Int) - 1)).toNat = some q ∧
      chooseProjectKey [⟨"ALPHA", "Alpha"⟩, ⟨"BETA", "Beta"⟩] "2abc" = q.key :=
  (project_prompt_selection
      (oracleApi (Except.ok []) (Except.error "project is required here") (Except.error "x")
        (Except.ok [⟨"ALPHA", "Alpha"⟩, ⟨"BETA", "Beta"⟩]) "2abc")
      "project is required here" "BAD" () () [] ⟨"ALPHA", "Alpha"⟩ [⟨"BETA", "Beta"⟩]
      "2abc" (by decide) rfl rfl).2.1 2 (by decide) (by decide) (by decide)

lemma mem_if_empty_singleton {α : Type} (x y : α) (c : Prop) [Decidable c] :
    (x ∈ if c then ([] : List α) else [y]) ↔ (¬c ∧ x = y) := by
  split <;> simp_all

/-- C6: `detect` lower-cases the root file names and emits at most one
finding per artifact kind in the fixed order README, LICENSE, .gitignore,
CI workflows; each finding appears exactly when its artifact is missing
(README when none of readme.md / readme.txt / readme is present, LICENSE
when none of license / license.md / license.txt / copying is present,
.gitignore when .gitignore is absent, workflows when the workflow listing
is empty).  In particular, for root files `["app.js", ".gitignore"]` and no
workflow files it yields exactly the README, LICENSE and workflows
findings, in that order. -/
theorem detect_spec (r : String) (root wf : List String) :
    (detect r ["app.js", ".gitignore"] [] =
      [readmeFinding r, licenseFinding r, workflowsFinding r]) ∧
    (readmeFinding r ∈ detect r root wf ↔ readmeMissing root = true) ∧
    (licenseFinding r ∈ detect r root wf ↔ licenseMissing root = true) ∧
    (gitignoreFinding r ∈ detect r root wf ↔ gitignoreMissing root = true) ∧
    (workflowsFinding r ∈ detect r root wf ↔ wf = []) ∧
    List.Sublist (detect r root wf)
      [readmeFinding r, licenseFinding r, gitignoreFinding r, workflowsFinding r] ∧
    (detect r root wf).Nodup := by
  have hsub : List.Sublist (detect r root wf)
      [readmeFinding r, licenseFinding r, gitignoreFinding r, workflowsFinding r] := by
    rw [detect_characterization r root wf]
    have h1 : List.Sublist (if readmeMissing root then [readmeFinding r] else [])
        [readmeFinding r] := by
      split <;> simp
    have h2 : List.Sublist (if licenseMissing root then [licenseFinding r] else [])
        [licenseFinding r] := by
      split <;> simp
    have h3 : List.Sublist (if gitignoreMissing root then [gitignoreFinding r] else [])
        [gitignoreFinding r] := by
      split <;> simp
    have h4 : List.Sublist (if wf.length > 0 then ([] : List Finding) else [workflowsFinding r])
        [workflowsFinding r] := by
      split <;> simp
    exact ((h1.append h2).append h3).append h4
  have hfull : ([readmeFinding r, licenseFinding r, gitignoreFinding r,
      workflowsFinding r]).Nodup := by
    simp [readmeFinding_ne_licenseFinding r, readmeFinding_ne_gitignoreFinding r,
      readmeFinding_ne_workflowsFinding r, licenseFinding_ne_gitignoreFinding r,
      licenseFinding_ne_workflowsFinding r, gitignoreFinding_ne_workflowsFinding r]
  refine ⟨rfl, ?_, ?_, ?_, ?_, hsub, hsub.nodup hfull⟩
  · rw [detect_characterization r root wf]
    simp [mem_if_singleton, mem_if_empty_singleton,
      readmeFinding_ne_licenseFinding r, readmeFinding_ne_gitignoreFinding r,
      readmeFinding_ne_workflowsFinding r]
  · rw [detect_characterization r root wf]
    simp [mem_if_singleton, mem_if_empty_singleton,
      (readmeFinding_ne_licenseFinding r).symm, licenseFinding_ne_gitignoreFinding r,
      licenseFinding_ne_workflowsFinding r]
  · rw [detect_characterization r root wf]
    simp [mem_if_singleton, mem_if_empty_singleton,
      (readmeFinding_ne_gitignoreFinding r).symm,
      (licenseFinding_ne_gitignoreFinding r).symm, gitignoreFinding_ne_workflowsFinding r]
  · rw [detect_characterization r root wf]
    simp [mem_if_singleton, mem_if_empty_singleton,
      (readmeFinding_ne_workflowsFinding r).symm,
      (licenseFinding_ne_workflowsFinding r).symm,
      (gitignoreFinding_ne_workflowsFinding r).symm, List.length_eq_zero]

/-- Witness for C6: the example repository listing yields exactly the
README, LICENSE and workflows findings, in that order. -/
theorem detect_spec_witness :
    detect "owner/repo" ["app.js", ".gitignore"] [] =
      [readmeFinding "owner/repo", licenseFinding "owner/repo",
        workflowsFinding "owner/repo"] :=
  (detect_spec "owner/repo" [] []).1

/-- C8: `detect` is a pure function of its two listings — any two
evaluations on equal inputs return the identical finding sequence. -/
theorem detect_deterministic (r1 r2 : String) (root1 root2 wf1 wf2 : List String)
    (h1 : r1 = r2) (h2 : root1 = root2) (h3 : wf1 = wf2) :
    detect r1 root1 wf1 = detect r2 root2 wf2 := by
  subst h1
  subst h2
  subst h3
  rfl

/-- Witness for C8 at a concrete listing. -/
theorem detect_deterministic_witness :
    detect "o/r" ["app.js"] ["ci.yml"] = detect "o/r" ["app.js"] ["ci.yml"] :=
  detect_deterministic "o/r" "o/r" ["app.js"] ["app.js"] ["ci.yml"] ["ci.yml"] rfl rfl rfl

/-- C7 (amended): against the concrete store model (search = text-contains
on the summary within the collection), for a finding sequence whose
summaries are pairwise substring-independent — as the detector's are — a
first run from an empty store creates one ticket per finding, and a second
run over the same findings against the store left by the first run yields
an `updated` outcome for every finding, creates no ticket and leaves the
store exactly unchanged, so no duplicate tickets are produced. -/
theorem reconcile_idempotent_for_independent_summaries (r K : String) (lf : List String)
    (F : List Finding) (fuel fuel2 : Nat) (hind : summariesIndependent F) :
    ∃ (evs1 : List Event),
      reconcile jiraStore r lf F (fuel + 1) K ⟨[], 0⟩ =
        some (RunResult.finished (createdOutcomes K 0 F), K,
          ⟨createdTickets K r lf 0 F, F.length⟩, evs1) ∧
      ∃ (os2 : List Outcome) (evs2 : List Event),
        reconcile jiraStore r lf F (fuel2 + 1) K ⟨createdTickets K r lf 0 F, F.length⟩ =
          some (RunResult.finished os2, K, ⟨createdTickets K r lf 0 F, F.length⟩, evs2) ∧
        os2.length = F.length ∧ ∀ o ∈ os2, ∃ k, o = Outcome.updated k := by
  obtain ⟨evs1, h1⟩ := @jiraStore_first_run r K lf F [] 0 fuel hind (by simp)
  obtain ⟨os2, evs2, h2, hlen, hupd⟩ :=
    @jiraStore_second_run r K lf F F.length hind F fuel2 fun g hg => hg
  exact ⟨evs1, by simpa using h1, os2, evs2, h2, hlen, hupd⟩

/-- Counterexample for C7 as stated: with findings whose summaries overlap
(`AB` and `A`), the first run from the empty store creates ticket `K-0`
for `AB` and then, since the contains-match search finds `K-0` for `A`,
updates `K-0`'s summary down to `A`; the second run over the unchanged
store then no longer finds a match for `AB` and records a `created`
outcome (a new ticket `K-1`) instead of `updated` — re-running is not
idempotent in general. -/
theorem reconcile_idempotent_counterexample :
    (reconcile jiraStore "o/r" [] [⟨"AB", "d1"⟩, ⟨"A", "d2"⟩] 1 "K" ⟨[], 0⟩).map
        (fun x => (x.1, x.2.2.1)) =
      some (RunResult.finished [Outcome.created "K-0", Outcome.updated "K-0"],
        (⟨[⟨"K-0", "K", "A",
            "o/r\n\nd2\n\nPayload:\n- Build Command: N/A\n- Test Command: N/A"⟩], 1⟩ :
          Store)) ∧
    (reconcile jiraStore "o/r" [] [⟨"AB", "d1"⟩, ⟨"A", "d2"⟩] 1 "K"
          ⟨[⟨"K-0", "K", "A",
            "o/r\n\nd2\n\nPayload:\n- Build Command: N/A\n- Test Command: N/A"⟩], 1⟩).map
        (fun x => x.1) =
      some (RunResult.finished [Outcome.created "K-1", Outcome.updated "K-0"]) := by
  decide

/-- Witness for the amended C7 on the detector's findings for a concrete
repository. -/
theorem reconcile_idempotent_witness :
    ∃ (evs1 : List Event),
      reconcile jiraStore "o/r" [] [⟨"Missing README in o/r", "dA"⟩,
          ⟨"Missing LICENSE in o/r", "dB"⟩] 1 "DOT" ⟨[], 0⟩ =
        some (RunResult.finished
          (createdOutcomes "DOT" 0 [⟨"Missing README in o/r", "dA"⟩,
            ⟨"Missing LICENSE in o/r", "dB"⟩]), "DOT",
          ⟨createdTickets "DOT" "o/r" [] 0 [⟨"Missing README in o/r", "dA"⟩,
            ⟨"Missing LICENSE in o/r", "dB"⟩], 2⟩, evs1) ∧
      ∃ (os2 : List Outcome) (evs2 : List Event),
        reconcile jiraStore "o/r" [] [⟨"Missing README in o/r", "dA"⟩,
            ⟨"Missing LICENSE in o/r", "dB"⟩] 1 "DOT"
            ⟨createdTickets "DOT" "o/r" [] 0 [⟨"Missing README in o/r", "dA"⟩,
              ⟨"Missing LICENSE in o/r", "dB"⟩], 2⟩ =
          some (RunResult.finished os2, "DOT",
            ⟨createdTickets "DOT" "o/r" [] 0 [⟨"Missing README in o/r", "dA"⟩,
              ⟨"Missing LICENSE in o/r", "dB"⟩], 2⟩, evs2) ∧
        os2.length = 2 ∧ ∀ o ∈ os2, ∃ k, o = Outcome.updated k :=
  reconcile_idempotent_for_independent_summaries "o/r" "DOT" []
    [⟨"Missing README in o/r", "dA"⟩, ⟨"Missing LICENSE in o/r", "dB"⟩] 0 0
    (by unfold summariesIndependent; decide)
